import Mathlib

/-!
Shallow embedding of the rss-slack repository's core logic, and proofs about
it.  Instants (UTC timestamps) are modelled as integers counting seconds; the
ISO-8601 string form a timestamp takes inside the JSON stores is abstracted to
the instant it denotes.  Python floats appear only as relevance scores, which
are ratios of small integers; they are modelled as rationals.
-/

namespace RssSlack

/-- Instant: a UTC timestamp, in seconds. -/
abbrev Instant := Int

/-- Raw feed entry as handed over by the feed-parsing collaborator.  A field is
`none` when the entry lacks the corresponding key (Python `entry.get(k, d)`
falls back to `d` only in that case); a present-but-empty string is `some ""`.
The `published_parsed` and `updated_parsed` fields are `some t` exactly when
the structured time tuple is present and denotes a valid calendar time `t`. -/
structure RawEntry where
  id : Option String
  link : Option String
  title : Option String
  summary : Option String
  description : Option String
  published_parsed : Option Instant
  updated_parsed : Option Instant
deriving Repr, DecidableEq

/-- One configured feed source, an element of the feeds.json `feeds` array.
The `domain` field stands for `urlparse(url).netloc`, treated as given data of
the source (URL parsing is external plumbing). -/
structure FeedSource where
  id : String
  name : String
  url : String
  domain : String
  enabled : Bool
  keywords : List String
deriving Repr, DecidableEq

/-- Python `str.lower`, applied character by character. -/
def lowerStr (s : String) : String := ⟨s.data.map Char.toLower⟩

/-- Python substring test `needle in hay`. -/
def strContainsB (hay needle : String) : Bool := decide (needle.data <:+: hay.data)

/-- Fuel-indexed engine for Python `str.replace`: replaces non-overlapping
occurrences of `pat` left to right.  The fuel is always instantiated with the
length of the subject string, which suffices for full evaluation. -/
def replaceFuel : Nat → List Char → List Char → List Char → List Char
  | 0, s, _, _ => s
  | _ + 1, [], _, _ => []
  | fuel + 1, c :: rest, pat, rep =>
    if pat ≠ [] ∧ pat <+: (c :: rest) then
      rep ++ replaceFuel fuel ((c :: rest).drop pat.length) pat rep
    else
      c :: replaceFuel fuel rest pat rep

/-- Python `s.replace(pat, rep)`. -/
def strReplace (s pat rep : String) : String :=
  ⟨replaceFuel s.data.length s.data pat.data rep.data⟩

/-- Python truthiness `a or b` for two optional strings: `a` unless it is
missing or empty, else `b`. -/
def orFalsy (a b : Option String) : Option String :=
  match a with
  | some s => if s = "" then b else some s
  | none => b

/-- Python `not x` for an optional string: true when missing or empty. -/
def falsy (a : Option String) : Bool :=
  match a with
  | some s => s = ""
  | none => true

namespace fetch_articles

/-- Article record as persisted in data/articles.json by fetch_articles.py. -/
structure Article where
  id : String
  feed_id : String
  feed_name : String
  feed_url : String
  title : String
  link : String
  summary : String
  published : Instant
  fetched : Instant
deriving Repr, DecidableEq

/-- Model of `parse_published_date`: first structured time among
`published_parsed` and `updated_parsed` that is present and valid, defaulting
to the current instant. -/
def parse_published_date (entry : RawEntry) (now : Instant) : Instant :=
  match entry.published_parsed with
  | some t => t
  | none =>
    match entry.updated_parsed with
    | some t => t
    | none => now

/-- Model of `link = entry.get('link', entry.get('id', ''))`: the identity the
fetch loop assigns to an entry.  The `id` field is consulted only when the
`link` key is absent altogether. -/
def entryLink (entry : RawEntry) : String :=
  match entry.link with
  | some l => l
  | none => entry.id.getD ""

/-- Model of `summary = entry.get('summary', entry.get('description', ''))`. -/
def rawSummary (entry : RawEntry) : String :=
  match entry.summary with
  | some s => s
  | none => entry.description.getD ""

/-- Summary cleanup of the fetch loop: strip literal paragraph and line-break
markers, then truncate to 500 characters. -/
def cleanSummary (entry : RawEntry) : String :=
  let s0 := rawSummary entry
  let s1 := strReplace s0 "<p>" ""
  let s2 := strReplace s1 "</p>" "\n"
  let s3 := strReplace s2 "<br>" "\n"
  let s4 := strReplace s3 "<br/>" "\n"
  ⟨s4.data.take 500⟩

/-- Model of `load_existing_articles`: the lookup keyed by each stored
article's `link` built by iterating data/articles.json; a later record with the
same link overwrites an earlier one, as in Python dict insertion. -/
def load_existing_articles (stored : List Article) : String → Option Article :=
  fun l => stored.reverse.find? (fun a => a.link == l)

/-- Body of the entry loop of `fetch_feed_articles`; `none` means the loop
moves on without contributing a record.  The `uuid` argument stands for the
`uuid.uuid4()` draw used when a fresh record is created. -/
def processEntry (feed : FeedSource) (cutoff : Instant)
    (existing : String → Option Article) (now : Instant) (uuid : String)
    (entry : RawEntry) : Option Article :=
  let link := entryLink entry
  if link = "" then none
  else
    match existing link with
    | some ex => if cutoff ≤ ex.published then some ex else none
    | none =>
      let published_date := parse_published_date entry now
      if published_date < cutoff then none
      else some {
        id := uuid
        feed_id := feed.id
        feed_name := feed.name
        feed_url := "https://" ++ feed.domain
        title := entry.title.getD "No title"
        link := link
        summary := cleanSummary entry
        published := published_date
        fetched := now }

/-- Model of `fetch_feed_articles` on the entry list its URL yields.  The
transport itself is the black-box collaborator; a feed whose fetch or parse
raises contributes `[]` (the `except` branch), indistinguishable from a feed
paired with no entries, so it needs no separate constructor. -/
def fetch_feed_articles (feed : FeedSource) (cutoff : Instant)
    (existing : String → Option Article) (now : Instant)
    (uuid : RawEntry → String) (entries : List RawEntry) : List Article :=
  entries.filterMap (fun e => processEntry feed cutoff existing now (uuid e) e)

/-- Model of `main` of fetch_articles.py: compute the 7-day cutoff, index the
stored articles by link, collect the per-feed results of enabled feeds, and
sort by published date, newest first (a stable sort; Python sorts the ISO
strings, whose lexicographic order on a uniform format is the chronological
order of the instants they denote).  The result is what `save_articles`
persists. -/
def fetchMain (feeds : List (FeedSource × List RawEntry)) (stored : List Article)
    (now : Instant) (uuid : RawEntry → String) : List Article :=
  let cutoff : Instant := now - 7 * 86400
  let existing := load_existing_articles stored
  let enabled_feeds := feeds.filter (fun p => p.1.enabled)
  let all_articles :=
    enabled_feeds.flatMap (fun p => fetch_feed_articles p.1 cutoff existing now uuid p.2)
  List.insertionSort (fun a b => b.published ≤ a.published) all_articles

end fetch_articles

namespace consolidator

/-- Model of `calculate_relevance` of main.py: with no configured keywords the
score is 1; otherwise the fraction of keywords whose lowercase form occurs in
the lowercased title and summary joined by a single space, capped at 1.  The
Python float is modelled as a rational. -/
def calculate_relevance (entry : RawEntry) (feed_config : FeedSource) : ℚ :=
  let keywords := feed_config.keywords
  if keywords = [] then 1
  else
    let title := lowerStr (entry.title.getD "")
    let summary := lowerStr (entry.summary.getD "")
    let content := title ++ " " ++ summary
    let matchCount := (keywords.filter (fun k => strContainsB content (lowerStr k))).length
    min ((matchCount : ℚ) / (keywords.length : ℚ)) 1

/-- Modelled from the claim's words, for comparison with the source: score =
count of keywords occurring in the lowercased concatenation of title and
summary (no separator), divided by the keyword count; 1 when no keywords. -/
def relevanceClaimed (entry : RawEntry) (feed_config : FeedSource) : ℚ :=
  if feed_config.keywords = [] then 1
  else
    let content := lowerStr ((entry.title.getD "") ++ (entry.summary.getD ""))
    let matchCount := (feed_config.keywords.filter (fun k => strContainsB content (lowerStr k))).length
    (matchCount : ℚ) / (feed_config.keywords.length : ℚ)

/-- Amended scoring formula: as `relevanceClaimed` but with title and summary
joined by a single space, the way the source builds its search text, and with
no cap (the cap in the source is provably redundant). -/
def relevanceAmended (entry : RawEntry) (feed_config : FeedSource) : ℚ :=
  if feed_config.keywords = [] then 1
  else
    let content := lowerStr (entry.title.getD "") ++ " " ++ lowerStr (entry.summary.getD "")
    let matchCount := (feed_config.keywords.filter (fun k => strContainsB content (lowerStr k))).length
    (matchCount : ℚ) / (feed_config.keywords.length : ℚ)

end consolidator

namespace send_reminder

/-- An article record as read back from data/articles.json by the reminder.
Only the fields the reminder consults are modelled: `id`, and the stored
published timestamp, which is `some t` when `datetime.fromisoformat` parses it
to the instant `t` and `none` when the field is missing or malformed (the
`KeyError` and `ValueError` cases). -/
structure StoredArticle where
  id : String
  published : Option Instant
deriving Repr, DecidableEq

/-- Decision used by the reminder: not yet published, and the stored timestamp
parses to an instant no older than the cutoff. -/
def reviewable (published_ids : List String) (cutoff : Instant)
    (a : StoredArticle) : Bool :=
  !decide (a.id ∈ published_ids) &&
    match a.published with
    | some d => decide (cutoff ≤ d)
    | none => false

/-- The article loop of `get_unpublished_articles`, accumulating in encounter
order; a malformed timestamp takes the `except` branch and skips only that
article. -/
def articleLoop (published_ids : List String) (cutoff : Instant) :
    List StoredArticle → List StoredArticle
  | [] => []
  | a :: rest =>
    if a.id ∈ published_ids then articleLoop published_ids cutoff rest
    else
      match a.published with
      | some d =>
        if cutoff ≤ d then a :: articleLoop published_ids cutoff rest
        else articleLoop published_ids cutoff rest
      | none => articleLoop published_ids cutoff rest

/-- Model of `get_unpublished_articles`: articles not in the published set
whose stored timestamp is within the last 24 hours. -/
def get_unpublished_articles (articles : List StoredArticle)
    (published_ids : List String) (now : Instant) : List StoredArticle :=
  articleLoop published_ids (now - 86400) articles

/-- Message text chosen by `send_reminder_dm` for a given article count. -/
def reminderMessage (article_count : Nat) : String :=
  if article_count = 0 then "Good morning! No new articles to review today."
  else if article_count = 1 then "Good morning! You have 1 new article to review."
  else "Good morning! You have " ++ toString article_count ++ " new articles to review."

/-- Model of `send_reminder_dm`: exits 1 when the bot token is missing,
otherwise posts one DM; the transport outcome is the black-box collaborator's
answer.  On a transport (Slack API) error the function returns `false` rather
than exiting.  The returned string is the text of the one message attempted. -/
def send_reminder_dm (slack_token : Option String) (article_count : Nat)
    (transport : Except String String) : Except Nat (String × Bool) :=
  if falsy slack_token then .error 1
  else
    let message := reminderMessage article_count
    match transport with
    | .ok _ => .ok (message, true)
    | .error _ => .ok (message, false)

/-- Outcome of a completed (exit 0) send-reminder run: the computed count, the
texts of the DM attempts made, and whether the DM succeeded. -/
structure ReminderOutcome where
  unpublished_count : Nat
  dm_texts : List String
  dm_ok : Bool
deriving Repr, DecidableEq

/-- Model of `main` of send_reminder.py.  `settings_user` and `env_user` are
the two sources for the reviewer's user id, combined with Python `or`;
`.error n` is an exit with status `n`, `.ok` is the normal exit 0, reached
whether or not the DM went through. -/
def main (articles : List StoredArticle) (published_ids : List String)
    (settings_user env_user slack_token : Option String)
    (transport : Except String String) (now : Instant) :
    Except Nat ReminderOutcome :=
  let user_id := orFalsy settings_user env_user
  if falsy user_id then .error 1
  else
    let unpublished := get_unpublished_articles articles published_ids now
    match send_reminder_dm slack_token unpublished.length transport with
    | .error n => .error n
    | .ok (msg, ok) => .ok ⟨unpublished.length, [msg], ok⟩

end send_reminder

namespace publish_articles

/-- One element of the `history` array of data/published.json.  The `date`
field is the `%Y-%m-%d` rendering of the publish instant, abstracted here to
the instant itself. -/
structure PublishRecord where
  date : Instant
  article_ids : List String
  article_count : Nat
  slack_ts : String
  published_at : Instant
deriving Repr, DecidableEq

/-- The persisted publish-tracking state of data/published.json.  The
`published_articles` list is rewritten as `list(set(...))` on every update, so
its order is unspecified; it is modelled as the finite set it denotes. -/
structure PublishState where
  published_articles : Finset String
  history : List PublishRecord
deriving DecidableEq

/-- Python `l[-n:]`: the suffix of the most recent `n` elements. -/
def takeLast {α : Type} (n : Nat) (l : List α) : List α :=
  l.drop (l.length - n)

/-- Model of `publish_to_slack` reduced to its control flow: exit 1 on a
missing token or channel, exit 1 on a transport (Slack API) error, otherwise
return the message timestamp.  Message formatting feeds only the posted text
and does not influence the result. -/
def publish_to_slack (slack_token channel_id : Option String)
    (transport : Except String String) : Except Nat String :=
  if falsy slack_token then .error 1
  else if falsy channel_id then .error 1
  else
    match transport with
    | .ok ts => .ok ts
    | .error _ => .error 1

/-- The tracking update of `main` after a successful post (lines 180 to 192):
extend the published list with the raw requested ids and deduplicate, append
one history record built from the raw requested ids, keep the last 30
records. -/
def markPublishedOk (article_ids : List String) (slack_ts : String)
    (now : Instant) (published_data : PublishState) : PublishState :=
  { published_articles := published_data.published_articles ∪ article_ids.toFinset
    history := takeLast 30 (published_data.history ++
      [{ date := now
         article_ids := article_ids
         article_count := article_ids.length
         slack_ts := slack_ts
         published_at := now }]) }

/-- Model of `main` of publish_articles.py, from the point where the stores
are loaded.  `store` is the set of article ids present in data/articles.json;
requested ids not in it are dropped (with a warning) from the list of articles
handed to the Slack formatter, which is the second component of the result.
The date-descending sort of that list only permutes the digest and is omitted,
as the store model carries no dates.  `.error n` is an exit with status
`n`; `.ok` means the run persisted the returned state and exited 0. -/
def main (store : List String) (article_ids : List String)
    (published_data : PublishState)
    (settings_channel env_channel slack_token : Option String)
    (transport : Except String String) (now : Instant) :
    Except Nat (PublishState × List String) :=
  let articles_to_publish := article_ids.filter (fun i => decide (i ∈ store))
  if articles_to_publish = [] then .error 1
  else
    let channel_id := orFalsy settings_channel env_channel
    match publish_to_slack slack_token channel_id transport with
    | .error n => .error n
    | .ok slack_ts =>
      .ok (markPublishedOk article_ids slack_ts now published_data, articles_to_publish)

/-- A sequence of publish-selected-articles runs over one article store: each
call carries the requested id list and the message timestamp its post returns.
A failing run aborts the sequence, as every run is a separate process exit. -/
def publishRuns (store : List String) (calls : List (List String × String))
    (settings_channel env_channel slack_token : Option String)
    (now : Instant) (st : PublishState) : Except Nat PublishState :=
  match calls with
  | [] => .ok st
  | c :: rest =>
    match main store c.1 st settings_channel env_channel slack_token (.ok c.2) now with
    | .error n => .error n
    | .ok (st', _) => publishRuns store rest settings_channel env_channel slack_token now st'

end publish_articles

namespace fetch_articles

/-- Drop an optional string that is absent or empty. -/
def nonEmpty (o : Option String) : Option String :=
  match o with
  | some s => if s = "" then none else some s
  | none => none

/-- Modelled from the claim's words, for comparison with the source: the
identity-resolution rule as claimed, trying the explicit `id` field first and
the `link` field second, first non-empty value wins; `none` when both are
empty or absent. -/
def claimIdentity (e : RawEntry) : Option String :=
  (nonEmpty e.id).orElse (fun _ => nonEmpty e.link)

end fetch_articles

/-- Whether a transport outcome is a success, as a flag. -/
def transportOk (tr : Except String String) : Bool :=
  match tr with
  | .ok _ => true
  | .error _ => false

/-- Example feed source with no keywords. -/
def wFeed : FeedSource :=
  { id := "f1", name := "F1", url := "u1", domain := "d1", enabled := true,
    keywords := [] }

/-- Example raw entry carrying only a link, published at instant 999000. -/
def wEntry : RawEntry :=
  { id := none, link := some "La", title := some "T", summary := none,
    description := none, published_parsed := some 5, updated_parsed := none }

/-- Example raw entry carrying both a non-empty id and a non-empty link. -/
def cEntry : RawEntry :=
  { id := some "I", link := some "L", title := some "T", summary := none,
    description := none, published_parsed := some 999000, updated_parsed := none }

/-- Example raw entry with every field absent. -/
def emptyEntry : RawEntry :=
  { id := none, link := none, title := none, summary := none,
    description := none, published_parsed := none, updated_parsed := none }

/-- The article that fetching `wEntry` through `wFeed` at instant 1000000
creates. -/
def wArticle : fetch_articles.Article :=
  { id := "u", feed_id := "f1", feed_name := "F1", feed_url := "https://d1",
    title := "T", link := "La", summary := "", published := 5, fetched := 10 }

/-- Example feed source with keywords rust and wasm. -/
def rustFeed : FeedSource :=
  { id := "f2", name := "F2", url := "u2", domain := "d2", enabled := true,
    keywords := ["rust", "wasm"] }

/-- Example entry whose text contains the keyword rust but not wasm. -/
def rustEntry : RawEntry :=
  { id := none, link := some "Lr", title := some "Why Rust is great",
    summary := some "other words", description := none,
    published_parsed := some 0, updated_parsed := none }

/-- Example feed source with the single keyword rust. -/
def splitFeed : FeedSource :=
  { id := "f3", name := "F3", url := "u3", domain := "d3", enabled := true,
    keywords := ["rust"] }

/-- Example entry whose title-summary boundary splits the keyword rust: the
claimed search text contains rust, the source's search text does not. -/
def splitEntry : RawEntry :=
  { id := none, link := some "Ls", title := some "ru", summary := some "st",
    description := none, published_parsed := some 0, updated_parsed := none }

/-- Example stored article for the reminder, with a parseable timestamp. -/
def rArticle : send_reminder.StoredArticle := { id := "a1", published := some 99999 }

/-- Publish-tracking state holding the single identity A and no history. -/
def pState : publish_articles.PublishState := { published_articles := {"A"}, history := [] }

/-- Publish-tracking state after one publish of A at instant 0 from empty. -/
def wState : publish_articles.PublishState :=
  { published_articles := {"A"},
    history := [{ date := 0, article_ids := ["A"], article_count := 1,
                  slack_ts := "t", published_at := 0 }] }

set_option maxRecDepth 4000

/-- Length of the last-n suffix. -/
theorem takeLast_length {α : Type} (n : Nat) (l : List α) :
    (publish_articles.takeLast n l).length = min l.length n := by
  simp only [publish_articles.takeLast, List.length_drop]
  omega

/-- Characterization of a successful publish run with transport answer `ts`:
it succeeds exactly when some requested id is in the store and the token and
channel are configured, and then the persisted state is the tracking update on
the raw requested ids while the digest holds the valid ids only. -/
theorem main_ok_iff {store ids : List String} {st : publish_articles.PublishState}
    {sch ech tok : Option String} {ts : String} {now : Instant}
    {st' : publish_articles.PublishState} {sel : List String} :
    publish_articles.main store ids st sch ech tok (.ok ts) now = .ok (st', sel) ↔
      (ids.filter (fun i => decide (i ∈ store)) ≠ [] ∧ falsy tok = false ∧
       falsy (orFalsy sch ech) = false ∧
       st' = publish_articles.markPublishedOk ids ts now st ∧
       sel = ids.filter (fun i => decide (i ∈ store))) := by
  simp only [publish_articles.main, publish_articles.publish_to_slack]
  split_ifs with h1 h2 h3
  · simp [h1]
  · simp [h1, h2]
  · simp [h1, h2, h3]
  · simp only [Except.ok.injEq, Prod.mk.injEq]
    constructor
    · rintro ⟨hst, hsel⟩
      exact ⟨h1, by simp [h2], by simp [h3], hst.symm, hsel.symm⟩
    · rintro ⟨-, -, -, hst, hsel⟩
      exact ⟨hst.symm, hsel.symm⟩

/-- C2 (amended): after a successful publish run, requested ids missing from
the Article store are dropped from the posted digest (with a warning) and do
not abort the run, but the raw requested id list, missing ids included, is
what enters the persisted publish state: both the PublishedSet union and the
appended PublishRecord use it. -/
theorem publish_unknown_id_amended (store ids : List String)
    (st : publish_articles.PublishState) (sch ech tok : Option String)
    (ts : String) (now : Instant) (st' : publish_articles.PublishState)
    (sel : List String)
    (h : publish_articles.main store ids st sch ech tok (.ok ts) now = .ok (st', sel)) :
    sel = ids.filter (fun i => decide (i ∈ store)) ∧
    (∀ i, i ∈ ids → i ∉ store → i ∉ sel) ∧
    st'.published_articles = st.published_articles ∪ ids.toFinset ∧
    st'.history = publish_articles.takeLast 30 (st.history ++
      [{ date := now, article_ids := ids, article_count := ids.length,
         slack_ts := ts, published_at := now }]) := by
  obtain ⟨-, -, -, hst, hsel⟩ := main_ok_iff.mp h
  subst hst hsel
  refine ⟨rfl, ?_, rfl, rfl⟩
  intro i _ hn hmem
  have hf := (List.mem_filter.mp hmem).2
  simp only [decide_eq_true_eq] at hf
  exact hn hf

/-- C2 (counterexample): with the article store holding only A, requesting
A and B succeeds, posts only A, yet records B in both the persisted
PublishedSet and the appended PublishRecord, contradicting the claim that a
missing id enters neither. -/
theorem publish_unknown_id_counterexample :
    publish_articles.main ["A"] ["A", "B"] ⟨∅, []⟩ (some "C") none (some "T") (.ok "ts") 0 =
      .ok (⟨{"A", "B"}, [⟨0, ["A", "B"], 2, "ts", 0⟩]⟩, ["A"]) ∧
    "B" ∉ (["A"] : List String) ∧ "B" ∈ ({"A", "B"} : Finset String) ∧
    "B" ∈ (["A", "B"] : List String) := ⟨rfl, by decide, by decide, by decide⟩

/-- C2 (witness): the amended theorem applied to the concrete run above. -/
theorem publish_unknown_id_witness :
    (["A"] : List String) = (["A", "B"] : List String).filter
      (fun i => decide (i ∈ (["A"] : List String))) ∧
    (∀ i, i ∈ (["A", "B"] : List String) → i ∉ (["A"] : List String) →
      i ∉ (["A"] : List String)) ∧
    ({"A", "B"} : Finset String) = ∅ ∪ (["A", "B"] : List String).toFinset ∧
    [(⟨0, ["A", "B"], 2, "ts", 0⟩ : publish_articles.PublishRecord)] =
      publish_articles.takeLast 30 ([] ++
        [{ date := 0, article_ids := ["A", "B"], article_count := 2,
           slack_ts := "ts", published_at := 0 }]) :=
  publish_unknown_id_amended ["A"] ["A", "B"] ⟨∅, []⟩ (some "C") none (some "T")
    "ts" 0 ⟨{"A", "B"}, [⟨0, ["A", "B"], 2, "ts", 0⟩]⟩ ["A"] rfl

/-- C5 (confirmed): publishing an identity that is already in PublishedSet
does not error (given configured token and channel), leaves the PublishedSet
of the persisted state unchanged, and appends one more PublishRecord carrying
that identity again, the history growing to min(previous + 1, 30). -/
theorem publish_idempotent (i : String) (store : List String)
    (st : publish_articles.PublishState) (ech : Option String) (c t ts : String)
    (now : Instant) (hi : i ∈ store) (hpub : i ∈ st.published_articles)
    (hc : ¬(c = "")) (ht : ¬(t = "")) :
    publish_articles.main store [i] st (some c) ech (some t) (.ok ts) now =
      .ok (⟨st.published_articles,
            publish_articles.takeLast 30 (st.history ++ [⟨now, [i], 1, ts, now⟩])⟩, [i]) ∧
    (publish_articles.takeLast 30 (st.history ++ [⟨now, [i], 1, ts, now⟩])).length =
      min (st.history.length + 1) 30 := by
  have hstate : publish_articles.markPublishedOk [i] ts now st =
      ⟨st.published_articles,
       publish_articles.takeLast 30 (st.history ++ [⟨now, [i], 1, ts, now⟩])⟩ := by
    simp only [publish_articles.markPublishedOk, publish_articles.PublishState.mk.injEq]
    constructor
    · refine Finset.union_eq_left.mpr ?_
      simp [hpub]
    · rfl
  constructor
  · refine main_ok_iff.mpr ⟨?_, ?_, ?_, hstate.symm, ?_⟩
    · simp [hi]
    · simp [falsy, ht]
    · simp [orFalsy, falsy, hc]
    · simp [hi]
  · rw [takeLast_length]
    simp

/-- C5 (witness): the idempotence theorem applied to a store holding A with A
already published. -/
theorem publish_idempotent_witness :
    publish_articles.main ["A"] ["A"] pState (some "C") none (some "T") (.ok "ts") 0 =
      .ok (⟨pState.published_articles,
            publish_articles.takeLast 30 (pState.history ++ [⟨0, ["A"], 1, "ts", 0⟩])⟩, ["A"]) ∧
    (publish_articles.takeLast 30 (pState.history ++ [⟨0, ["A"], 1, "ts", 0⟩])).length =
      min (pState.history.length + 1) 30 :=
  publish_idempotent "A" ["A"] pState none "C" "T" "ts" 0 (by decide) (by decide)
    (by decide) (by decide)

/-- C9 (amended): a transport error on the single posted message surfaces as
exit 1 for the publish-selected-articles run, before any tracking state is
persisted; the send-reminder run records the failure (the DM outcome flag is
false, after the error is logged) but still exits 0.  Neither run touches the
already-computed state: the publish run persists nothing on failure, and the
reminder's computed article list is returned unchanged. -/
theorem transport_error_amended :
    (∀ (store ids : List String) (st : publish_articles.PublishState)
       (sch ech tok : Option String) (e : String) (now : Instant),
       publish_articles.main store ids st sch ech tok (.error e) now = .error 1) ∧
    (∀ (articles : List send_reminder.StoredArticle) (pids : List String)
       (eu : Option String) (u t e : String) (now : Instant),
       ¬(u = "") → ¬(t = "") →
       send_reminder.main articles pids (some u) eu (some t) (.error e) now =
         .ok ⟨(send_reminder.get_unpublished_articles articles pids now).length,
              [send_reminder.reminderMessage
                (send_reminder.get_unpublished_articles articles pids now).length],
              false⟩) := by
  constructor
  · intro store ids st sch ech tok e now
    simp only [publish_articles.main, publish_articles.publish_to_slack]
    split_ifs <;> rfl
  · intro articles pids eu u t e now hu ht
    simp [send_reminder.main, send_reminder.send_reminder_dm, orFalsy, falsy, hu, ht]

/-- C9 (counterexample): a send-reminder run whose single DM post fails with a
transport error still exits 0 (a successful `.ok` outcome), contradicting the
claim that every single-message run reports a transport error with a non-zero
exit status. -/
theorem transport_error_counterexample :
    send_reminder.main [] [] (some "U") none (some "T") (.error "boom") 0 =
      .ok ⟨0, ["Good morning! No new articles to review today."], false⟩ := rfl

/-- C9 (witness): the amended theorem applied to a reminder run over one
recent unpublished article with a failing transport. -/
theorem transport_error_witness :
    send_reminder.main [rArticle] [] (some "U") none (some "T") (.error "boom") 100000 =
      .ok ⟨1, ["Good morning! You have 1 new article to review."], false⟩ :=
  transport_error_amended.2 [rArticle] [] none "U" "T" "boom" 100000
    (by decide) (by decide)

/-- The reminder article loop is a filter by the reviewable predicate. -/
theorem articleLoop_eq_filter (pids : List String) (cutoff : Instant)
    (l : List send_reminder.StoredArticle) :
    send_reminder.articleLoop pids cutoff l =
      l.filter (send_reminder.reviewable pids cutoff) := by
  induction l with
  | nil => rfl
  | cons a rest ih =>
    by_cases hmem : a.id ∈ pids
    · simp [send_reminder.articleLoop, send_reminder.reviewable, hmem, ih]
    · cases hp : a.published with
      | none => simp [send_reminder.articleLoop, send_reminder.reviewable, hmem, hp, ih]
      | some d =>
        by_cases hd : cutoff ≤ d
        · simp [send_reminder.articleLoop, send_reminder.reviewable, hmem, hp, hd, ih]
        · simp [send_reminder.articleLoop, send_reminder.reviewable, hmem, hp, hd, ih]

/-- C8 (confirmed): the Reminder Calculator is a pure filter over the article
list: it returns exactly the articles not in PublishedSet whose stored instant
parses and is no older than 24 hours before the current instant (the lookback
window).  An article whose stored timestamp is missing or malformed (a
non-parsing `published` field) is thereby skipped individually while the
computation of the rest proceeds. -/
theorem reminder_calculator_characterization
    (articles : List send_reminder.StoredArticle) (pids : List String)
    (now : Instant) :
    send_reminder.get_unpublished_articles articles pids now =
      articles.filter (send_reminder.reviewable pids (now - 86400)) ∧
    (∀ a, a ∈ send_reminder.get_unpublished_articles articles pids now ↔
       (a ∈ articles ∧ a.id ∉ pids ∧
        ∃ d, a.published = some d ∧ now - 86400 ≤ d)) := by
  have h := articleLoop_eq_filter pids (now - 86400) articles
  refine ⟨h, fun a => ?_⟩
  simp only [send_reminder.get_unpublished_articles] at h ⊢
  rw [h, List.mem_filter]
  cases hp : a.published with
  | none => simp [send_reminder.reviewable, hp]
  | some d => simp [send_reminder.reviewable, hp]

/-- C8 (witness): the characterization applied to one recent article and an
empty PublishedSet. -/
theorem reminder_calculator_witness :
    send_reminder.get_unpublished_articles [rArticle] [] 100000 =
      [rArticle].filter (send_reminder.reviewable [] (100000 - 86400)) :=
  (reminder_calculator_characterization [rArticle] [] 100000).1

/-- C10 (confirmed): with the reviewer's user id and token configured, the
send-reminder run always reaches its single DM attempt, whatever the count of
reviewable articles and whatever the transport answers; with zero unpublished
recent articles the message text states that there is nothing to review, and
the run exits 0 either way. -/
theorem reminder_always_sends (articles : List send_reminder.StoredArticle)
    (pids : List String) (eu : Option String) (u t : String)
    (tr : Except String String) (now : Instant)
    (hu : ¬(u = "")) (ht : ¬(t = "")) :
    send_reminder.main articles pids (some u) eu (some t) tr now =
      .ok ⟨(send_reminder.get_unpublished_articles articles pids now).length,
           [send_reminder.reminderMessage
             (send_reminder.get_unpublished_articles articles pids now).length],
           transportOk tr⟩ ∧
    send_reminder.reminderMessage 0 = "Good morning! No new articles to review today." := by
  constructor
  · cases tr <;>
      simp [send_reminder.main, send_reminder.send_reminder_dm, orFalsy, falsy,
        hu, ht, transportOk]
  · rfl

/-- C10 (witness): the theorem applied to an empty article store, where the
one DM sent says there is nothing to review. -/
theorem reminder_always_sends_witness :
    send_reminder.main [] [] (some "U") none (some "T") (.ok "ts") 5 =
      .ok ⟨0, ["Good morning! No new articles to review today."], true⟩ ∧
    send_reminder.reminderMessage 0 = "Good morning! No new articles to review today." :=
  reminder_always_sends [] [] none "U" "T" (.ok "ts") 5 (by decide) (by decide)

/-- A stored-article lookup only answers with a record whose link is the key. -/
theorem load_existing_articles_link (stored : List fetch_articles.Article)
    (l : String) (ex : fetch_articles.Article)
    (h : fetch_articles.load_existing_articles stored l = some ex) : ex.link = l := by
  simp only [fetch_articles.load_existing_articles] at h
  have := List.find?_some h
  simpa using this

/-- Any article the entry loop emits carries the entry's resolved link as its
identity, which is non-empty, and a published time at or after the cutoff. -/
theorem processEntry_some_spec (feed : FeedSource) (cutoff : Instant)
    (existing : String → Option fetch_articles.Article) (now : Instant)
    (u : String) (e : RawEntry) (a : fetch_articles.Article)
    (hex : ∀ l ex, existing l = some ex → ex.link = l)
    (h : fetch_articles.processEntry feed cutoff existing now u e = some a) :
    a.link = fetch_articles.entryLink e ∧ ¬(fetch_articles.entryLink e = "") ∧
    cutoff ≤ a.published := by
  simp only [fetch_articles.processEntry] at h
  by_cases hl : fetch_articles.entryLink e = ""
  · simp [hl] at h
  · rw [if_neg hl] at h
    cases hfind : existing (fetch_articles.entryLink e) with
    | some ex =>
      rw [hfind] at h
      dsimp only at h
      by_cases hcut : cutoff ≤ ex.published
      · rw [if_pos hcut] at h
        injection h with h
        subst h
        exact ⟨hex _ _ hfind, hl, hcut⟩
      · rw [if_neg hcut] at h
        exact absurd h (by simp)
    | none =>
      rw [hfind] at h
      dsimp only at h
      by_cases hcut : fetch_articles.parse_published_date e now < cutoff
      · rw [if_pos hcut] at h
        exact absurd h (by simp)
      · rw [if_neg hcut] at h
        injection h with h
        subst h
        exact ⟨rfl, hl, not_lt.mp hcut⟩

/-- C6 (confirmed): every article in the merged output the fetch run persists
has a published time no older than the current run time minus the 7-day
retention window; this covers both freshly normalized entries and re-admitted
previously stored records. -/
theorem fetch_window_invariant (feeds : List (FeedSource × List RawEntry))
    (stored : List fetch_articles.Article) (now : Instant)
    (uuid : RawEntry → String) (a : fetch_articles.Article)
    (h : a ∈ fetch_articles.fetchMain feeds stored now uuid) :
    now - 7 * 86400 ≤ a.published := by
  simp only [fetch_articles.fetchMain] at h
  rw [List.Perm.mem_iff (List.perm_insertionSort _ _)] at h
  rw [List.mem_flatMap] at h
  obtain ⟨p, hp, ha⟩ := h
  simp only [fetch_articles.fetch_feed_articles] at ha
  rw [List.mem_filterMap] at ha
  obtain ⟨e, he, hpe⟩ := ha
  exact (processEntry_some_spec _ _ _ _ _ _ _
    (fun l ex hx => load_existing_articles_link stored l ex hx) hpe).2.2

/-- C6 (witness): the window invariant applied to the article produced by the
example fetch run. -/
theorem fetch_window_invariant_witness : (10 : Instant) - 7 * 86400 ≤ wArticle.published :=
  fetch_window_invariant [(wFeed, [wEntry])] [] 10 (fun _ => "u") wArticle (by decide)

/-- C3 (amended): the fetch loop resolves an entry's identity from the link
field when that field is present (even empty), falling back to the id field
only when the link key is absent; an entry whose resolved identity is empty is
always skipped, any article emitted carries the resolved identity as its link,
and a not-yet-stored entry within the window is skipped only for an empty
identity. -/
theorem identity_resolution_amended (feed : FeedSource) (cutoff : Instant)
    (existing : String → Option fetch_articles.Article) (now : Instant)
    (u : String) (e : RawEntry)
    (hex : ∀ l ex, existing l = some ex → ex.link = l) :
    (fetch_articles.entryLink e = "" →
       fetch_articles.processEntry feed cutoff existing now u e = none) ∧
    (∀ a, fetch_articles.processEntry feed cutoff existing now u e = some a →
       a.link = fetch_articles.entryLink e) ∧
    (existing (fetch_articles.entryLink e) = none →
       cutoff ≤ fetch_articles.parse_published_date e now →
       ((fetch_articles.processEntry feed cutoff existing now u e).isSome ↔
          ¬(fetch_articles.entryLink e = ""))) := by
  refine ⟨?_, ?_, ?_⟩
  · intro hl
    simp [fetch_articles.processEntry, hl]
  · intro a h
    exact (processEntry_some_spec feed cutoff existing now u e a hex h).1
  · intro hnone hcut
    by_cases hl : fetch_articles.entryLink e = ""
    · simp [fetch_articles.processEntry, hl]
    · simp [fetch_articles.processEntry, hl, hnone, not_lt.mpr hcut]

/-- C3 (counterexample): an entry carrying the non-empty id I and the
non-empty link L is normalized to an article whose identity is L, not the I
the claimed id-first resolution order would pick. -/
theorem identity_resolution_counterexample :
    fetch_articles.claimIdentity cEntry = some "I" ∧
    (fetch_articles.fetch_feed_articles wFeed 0 (fun _ => none) 10 (fun _ => "u")
      [cEntry]).map (fun a => a.link) = ["L"] ∧
    ¬((some "I" : Option String) = some "L") := ⟨by decide, by decide, by decide⟩

/-- C3 (witness): the amended theorem applied to an entry with every field
absent, whose resolved identity is empty and which is therefore skipped. -/
theorem identity_resolution_witness :
    fetch_articles.processEntry wFeed 0 (fun _ => none) 10 "u" emptyEntry = none :=
  (identity_resolution_amended wFeed 0 (fun _ => none) 10 "u" emptyEntry
    (fun _ ex h => Option.noConfusion h)).1 (by decide)

/-- C7 (amended): the relevance score equals the fraction of keywords whose
lowercase form occurs as a substring of the lowercased title and summary
joined by a single space (the source's search text; not their bare
concatenation), it always lies in [0, 1] (the source's cap at 1 is redundant),
a keywordless source always scores 1, and the rust/wasm example scores 1/2. -/
theorem relevance_score_amended :
    (∀ (e : RawEntry) (f : FeedSource),
       consolidator.calculate_relevance e f = consolidator.relevanceAmended e f ∧
       0 ≤ consolidator.calculate_relevance e f ∧
       consolidator.calculate_relevance e f ≤ 1 ∧
       (f.keywords = [] → consolidator.calculate_relevance e f = 1)) ∧
    consolidator.calculate_relevance rustEntry rustFeed = 1 / 2 := by
  constructor
  · intro e f
    by_cases hk : f.keywords = []
    · simp [consolidator.calculate_relevance, consolidator.relevanceAmended, hk]
    · have hn : 0 < f.keywords.length := List.length_pos.mpr hk
      have hnq : (0 : ℚ) < (f.keywords.length : ℚ) := by exact_mod_cast hn
      have hle : (f.keywords.filter (fun k =>
          strContainsB (lowerStr (e.title.getD "") ++ " " ++ lowerStr (e.summary.getD ""))
            (lowerStr k))).length ≤ f.keywords.length := List.length_filter_le _ _
      have hq : (((f.keywords.filter (fun k =>
          strContainsB (lowerStr (e.title.getD "") ++ " " ++ lowerStr (e.summary.getD ""))
            (lowerStr k))).length : ℚ) / (f.keywords.length : ℚ)) ≤ 1 := by
        rw [div_le_one hnq]
        exact_mod_cast hle
      refine ⟨?_, ?_, ?_, fun h => absurd h hk⟩
      · simp only [consolidator.calculate_relevance, consolidator.relevanceAmended, if_neg hk]
        exact min_eq_left hq
      · simp only [consolidator.calculate_relevance, if_neg hk]
        exact le_min (by positivity) zero_le_one
      · simp only [consolidator.calculate_relevance, if_neg hk]
        exact min_le_right _ _
  · have h1 : (rustFeed.keywords.filter (fun k =>
        strContainsB (lowerStr (rustEntry.title.getD "") ++ " " ++ lowerStr (rustEntry.summary.getD ""))
          (lowerStr k))).length = 1 := by decide
    have h3 : ¬(rustFeed.keywords = []) := by decide
    have h4 : rustFeed.keywords.length = 2 := by decide
    simp only [consolidator.calculate_relevance]
    rw [if_neg h3, h1, h4]
    norm_num [min_def]

/-- C7 (counterexample): with the single keyword rust, a title ru and a
summary st, the source scores 0 while the claimed formula, reading the search
text as the bare concatenation ru ++ st = rust, scores 1. -/
theorem relevance_score_counterexample :
    consolidator.calculate_relevance splitEntry splitFeed = 0 ∧
    consolidator.relevanceClaimed splitEntry splitFeed = 1 := by
  constructor
  · have h1 : (splitFeed.keywords.filter (fun k =>
        strContainsB (lowerStr (splitEntry.title.getD "") ++ " " ++ lowerStr (splitEntry.summary.getD ""))
          (lowerStr k))).length = 0 := by decide
    have h3 : ¬(splitFeed.keywords = []) := by decide
    simp only [consolidator.calculate_relevance]
    rw [if_neg h3, h1]
    norm_num [min_def]
  · have h1 : (splitFeed.keywords.filter (fun k =>
        strContainsB (lowerStr ((splitEntry.title.getD "") ++ (splitEntry.summary.getD "")))
          (lowerStr k))).length = 1 := by decide
    have h3 : ¬(splitFeed.keywords = []) := by decide
    have h4 : splitFeed.keywords.length = 1 := by decide
    simp only [consolidator.relevanceClaimed]
    rw [if_neg h3, h1, h4]
    norm_num

/-- C7 (witness): the amended theorem applied to a keywordless source, which
scores 1. -/
theorem relevance_score_witness : consolidator.calculate_relevance emptyEntry wFeed = 1 :=
  (relevance_score_amended.1 emptyEntry wFeed).2.2.2 (by decide)

/-- One feed contributes at most one article per identity for each entry
resolving to that identity. -/
theorem countP_fetch_le (feed : FeedSource) (cutoff : Instant)
    (existing : String → Option fetch_articles.Article) (now : Instant)
    (uuid : RawEntry → String) (s : String)
    (hex : ∀ l ex, existing l = some ex → ex.link = l)
    (entries : List RawEntry) :
    (fetch_articles.fetch_feed_articles feed cutoff existing now uuid entries).countP
        (fun a => a.link == s) ≤
      entries.countP (fun e => fetch_articles.entryLink e == s) := by
  induction entries with
  | nil => simp [fetch_articles.fetch_feed_articles]
  | cons e es ih =>
    simp only [fetch_articles.fetch_feed_articles, List.filterMap_cons] at ih ⊢
    cases hpe : fetch_articles.processEntry feed cutoff existing now (uuid e) e with
    | none =>
      rw [List.countP_cons]
      exact le_trans ih (Nat.le_add_right _ _)
    | some a =>
      rw [List.countP_cons, List.countP_cons]
      have hlink := (processEntry_some_spec feed cutoff existing now (uuid e) e a hex hpe).1
      rw [hlink]
      exact Nat.add_le_add ih (le_refl _)

/-- Across all feeds of a run, the merged list holds at most one article per
identity for each processed entry resolving to that identity. -/
theorem countP_flatMap_le (cutoff : Instant)
    (existing : String → Option fetch_articles.Article) (now : Instant)
    (uuid : RawEntry → String) (s : String)
    (hex : ∀ l ex, existing l = some ex → ex.link = l)
    (ps : List (FeedSource × List RawEntry)) :
    ((ps.flatMap (fun p =>
        fetch_articles.fetch_feed_articles p.1 cutoff existing now uuid p.2)).countP
      (fun a => a.link == s)) ≤
      ((ps.flatMap (fun p => p.2)).countP (fun e => fetch_articles.entryLink e == s)) := by
  induction ps with
  | nil => simp
  | cons p rest ih =>
    simp only [List.flatMap_cons, List.countP_append]
    exact Nat.add_le_add (countP_fetch_le p.1 cutoff existing now uuid s hex p.2) ih

/-- C1 (amended): provided every non-empty identity is resolved to by at most
one entry processed in the run (no two processed entries share an identity),
the merged output the fetch run persists holds at most one article record per
identity; in particular a later fetch of an already-stored identity re-admits
the stored record instead of creating a second one.  Without that proviso the
bound fails: two processed entries sharing an identity within one run each
contribute a record (see the counterexample). -/
theorem fetch_dedup_per_identity (feeds : List (FeedSource × List RawEntry))
    (stored : List fetch_articles.Article) (now : Instant)
    (uuid : RawEntry → String) (s : String)
    (h : ((((feeds.filter (fun p => p.1.enabled)).flatMap (fun p => p.2)).map
        fetch_articles.entryLink).filter (fun x => !(x == ""))).Nodup) :
    ((fetch_articles.fetchMain feeds stored now uuid).countP (fun a => a.link == s)) ≤ 1 := by
  simp only [fetch_articles.fetchMain]
  rw [List.Perm.countP_eq _ (List.perm_insertionSort _ _)]
  have hex : ∀ l ex, fetch_articles.load_existing_articles stored l = some ex →
      ex.link = l := fun l ex hx => load_existing_articles_link stored l ex hx
  by_cases hs : s = ""
  · subst hs
    have hzero : ∀ a ∈ (feeds.filter (fun p => p.1.enabled)).flatMap (fun p =>
        fetch_articles.fetch_feed_articles p.1 (now - 7 * 86400)
          (fetch_articles.load_existing_articles stored) now uuid p.2),
        ¬((fun a => a.link == "") a = true) := by
      intro a ha
      rw [List.mem_flatMap] at ha
      obtain ⟨p, hp, ha⟩ := ha
      simp only [fetch_articles.fetch_feed_articles] at ha
      rw [List.mem_filterMap] at ha
      obtain ⟨e, he, hpe⟩ := ha
      obtain ⟨hlink, hne, -⟩ := processEntry_some_spec _ _ _ _ _ _ _ hex hpe
      simp [hlink, hne]
    rw [List.countP_eq_zero.mpr hzero]
    omega
  · refine le_trans (countP_flatMap_le (now - 7 * 86400)
      (fetch_articles.load_existing_articles stored) now uuid s hex
      (feeds.filter (fun p => p.1.enabled))) ?_
    have hs' : (fun x : String => !(x == "")) s = true := by simp [hs]
    calc ((feeds.filter (fun p => p.1.enabled)).flatMap (fun p => p.2)).countP
          (fun e => fetch_articles.entryLink e == s)
        = (((feeds.filter (fun p => p.1.enabled)).flatMap (fun p => p.2)).map
            fetch_articles.entryLink).countP (fun x => x == s) := by
          rw [List.countP_map]
          rfl
      _ = (((feeds.filter (fun p => p.1.enabled)).flatMap (fun p => p.2)).map
            fetch_articles.entryLink).count s := rfl
      _ = ((((feeds.filter (fun p => p.1.enabled)).flatMap (fun p => p.2)).map
            fetch_articles.entryLink).filter (fun x => !(x == ""))).count s :=
          (List.count_filter (p := fun x => !(x == "")) (a := s) hs').symm
      _ ≤ 1 := List.nodup_iff_count_le_one.mp h s

/-- C1 (counterexample): one run over one feed yielding two entries with the
same link La and an empty store saves two article records with the identity
La, contradicting the claim that entries sharing an identity within one run
produce at most one record. -/
theorem fetch_dedup_counterexample :
    1 < ((fetch_articles.fetchMain [(wFeed, [wEntry, wEntry])] [] 10 (fun _ => "u")).countP
      (fun a => a.link == "La")) := by decide

/-- C1 (witness): the amended theorem applied to a run processing one entry,
whose identity list is duplicate-free. -/
theorem fetch_dedup_witness :
    ((fetch_articles.fetchMain [(wFeed, [wEntry])] [] 10 (fun _ => "u")).countP
      (fun a => a.link == "La")) ≤ 1 :=
  fetch_dedup_per_identity [(wFeed, [wEntry])] [] 10 (fun _ => "u") "La" (by decide)

/-- Invariant of a sequence of successful publish runs: starting from a state
whose history is within the bound, the history length after the sequence is
the capped sum and the PublishedSet only grows, absorbing every requested
id. -/
theorem publishRuns_ok_inv (calls : List (List String × String)) :
    ∀ (store : List String) (sch ech tok : Option String) (now : Instant)
      (st s' : publish_articles.PublishState), st.history.length ≤ 30 →
    publish_articles.publishRuns store calls sch ech tok now st = .ok s' →
    s'.history.length = min (st.history.length + calls.length) 30 ∧
    st.published_articles ⊆ s'.published_articles ∧
    ∀ c ∈ calls, ∀ i ∈ c.1, i ∈ s'.published_articles := by
  induction calls with
  | nil =>
    intro store sch ech tok now st s' hle h
    simp only [publish_articles.publishRuns] at h
    injection h with h
    subst h
    refine ⟨?_, Finset.Subset.refl _, by simp⟩
    simp only [List.length_nil, Nat.add_zero]
    omega
  | cons c rest ih =>
    intro store sch ech tok now st s' hle h
    simp only [publish_articles.publishRuns] at h
    cases hm : publish_articles.main store c.1 st sch ech tok (.ok c.2) now with
    | error n =>
      rw [hm] at h
      exact absurd h (by simp)
    | ok pr =>
      obtain ⟨st1, sel⟩ := pr
      rw [hm] at h
      dsimp only at h
      obtain ⟨-, -, -, hst, -⟩ := main_ok_iff.mp hm
      subst hst
      have h30 : (publish_articles.markPublishedOk c.1 c.2 now st).history.length ≤ 30 := by
        simp only [publish_articles.markPublishedOk]
        rw [takeLast_length]
        omega
      obtain ⟨hlen, hsub, hmem⟩ := ih store sch ech tok now _ s' h30 h
      have hlen1 : (publish_articles.markPublishedOk c.1 c.2 now st).history.length =
          min (st.history.length + 1) 30 := by
        simp only [publish_articles.markPublishedOk]
        rw [takeLast_length]
        simp
      refine ⟨?_, ?_, ?_⟩
      · rw [hlen, hlen1]
        simp only [List.length_cons]
        omega
      · refine le_trans ?_ hsub
        simp only [publish_articles.markPublishedOk]
        exact Finset.subset_union_left
      · intro c' hc' i hi
        rcases List.mem_cons.mp hc' with rfl | hc'
        · apply hsub
          simp only [publish_articles.markPublishedOk]
          exact Finset.mem_union_right _ (List.mem_toFinset.mpr hi)
        · exact hmem c' hc' i hi

/-- C4 (confirmed): after any successful publish run the persisted history
holds at most 30 PublishRecords; after a sequence of successful runs starting
from the empty state it holds exactly min(N, 30) records, hence exactly 30
once more than 30 runs have happened, while the PublishedSet still contains
every identity requested by any of the runs: trimming is history-only. -/
theorem publish_history_bound :
    (∀ (store ids : List String) (st : publish_articles.PublishState)
       (sch ech tok : Option String) (tr : Except String String) (now : Instant)
       (st' : publish_articles.PublishState) (sel : List String),
       publish_articles.main store ids st sch ech tok tr now = .ok (st', sel) →
       st'.history.length ≤ 30) ∧
    (∀ (store : List String) (calls : List (List String × String))
       (sch ech tok : Option String) (now : Instant)
       (s' : publish_articles.PublishState),
       publish_articles.publishRuns store calls sch ech tok now ⟨∅, []⟩ = .ok s' →
       s'.history.length = min calls.length 30 ∧
       (30 < calls.length → s'.history.length = 30) ∧
       ∀ c ∈ calls, ∀ i ∈ c.1, i ∈ s'.published_articles) := by
  constructor
  · intro store ids st sch ech tok tr now st' sel h
    cases tr with
    | error e =>
      simp only [publish_articles.main, publish_articles.publish_to_slack] at h
      split_ifs at h
    | ok ts =>
      obtain ⟨-, -, -, hst, -⟩ := main_ok_iff.mp h
      subst hst
      simp only [publish_articles.markPublishedOk]
      rw [takeLast_length]
      omega
  · intro store calls sch ech tok now s' h
    obtain ⟨hlen, -, hmem⟩ :=
      publishRuns_ok_inv calls store sch ech tok now ⟨∅, []⟩ s' (by simp) h
    refine ⟨?_, ?_, hmem⟩
    · simpa using hlen
    · intro hgt
      simp only [List.length_nil] at hlen
      omega

/-- C4 (witness): the sequence theorem applied to a single successful run
publishing A from the empty state. -/
theorem publish_history_bound_witness :
    wState.history.length = min 1 30 ∧
    ((30 : Nat) < 1 → wState.history.length = 30) ∧
    (∀ c ∈ [((["A"], "t") : List String × String)], ∀ i ∈ c.1,
      i ∈ wState.published_articles) :=
  publish_history_bound.2 ["A"] [(["A"], "t")] (some "C") none (some "T") 0 wState rfl

end RssSlack
